import Mathlib

/-!
Shallow embedding of `custom_components/timezonetod/entity.py`
(`TimezoneTodSensorCore`), the boundary-resolution and transition-scheduling
engine of the timezonetod sensor.

Instants are whole seconds since an arbitrary epoch (UTC); calendar dates are
day numbers; timezones are fixed-offset `tzinfo` values; Python exceptions
raised and caught by the engine are modelled with `Except Unit`.
-/

namespace TimezoneTod

/-- Seconds in one day (`timedelta(days=1)`). -/
def daySecs : Int := 86400

/-- A fixed-offset timezone (`tzinfo`): `offset` is the UTC offset in seconds. -/
structure Tz where
  offset : Int
deriving DecidableEq

/-- Solar event tokens accepted by `_resolve_time`. -/
inductive SunEvent where
  | sunrise
  | sunset
deriving DecidableEq

/-- A configured time specification string, pre-tokenised: `clock fields`
stands for `config_val.split(":")` with each field replaced by `some n` when
`int(field)` parses to `n`, and by `none` when `int` raises. -/
inductive TimeSpec where
  | sunrise
  | sunset
  | clock (fields : List (Option Int))
deriving DecidableEq

/-- `parent_attributes`: the parent's published attribute dictionary.
`startTimeUtc` / `endTimeUtc` model `get(...)` followed by
`datetime.fromisoformat`: `none` = key absent, `some none` = present but
unparseable, `some (some t)` = parses to the UTC instant `t`. -/
structure ParentAttrs where
  timezone : Option String
  startTimeUtc : Option (Option Int)
  endTimeUtc : Option (Option Int)

/-- The immutable configuration held by `TimezoneTodSensorCore.__init__`. -/
structure Config where
  isChild : Bool
  startSpec : Option TimeSpec
  endSpec : Option TimeSpec
  startOffset : Int
  endOffset : Int
  tzOverride : Option String
  startRef : String
  endRef : String

/-- The mutable Computed State of `TimezoneTodSensorCore`. -/
structure SensorState where
  calculatedStartUtc : Option Int
  calculatedEndUtc : Option Int
  nextUpdateUtc : Option Int
  resolvedTimezoneStr : Option String
deriving DecidableEq

/-- Inputs of one `update_boundaries` call. `zoneDB` models `ZoneInfo` name
lookup (`none` = `ZoneInfoNotFoundError` / `ValueError`); `defaultTzStr`
models `str(default_timezone)`. -/
structure Inputs where
  nowUtc : Int
  defaultTz : Tz
  defaultTzStr : String
  sunCb : Option (SunEvent → Int → Option Int)
  parentAttributes : Option ParentAttrs
  zoneDB : String → Option Tz

deriving instance DecidableEq for Except

/-- Python truthiness of an optional string (`None` and `""` are falsy). -/
def strTruthy : Option String → Bool
  | none => false
  | some s => s != ""

/-- Python `a or b` for an optional string `a` and a string `b`. -/
def pyOrStr (a : Option String) (b : String) : String :=
  match a with
  | some s => if s = "" then b else s
  | none => b

/-- `now_utc.astimezone(tz).date()` as a day number: floor division of the
local-clock seconds by one day. -/
def localDate (tz : Tz) (t : Int) : Int := (t + tz.offset).fdiv daySecs

/-- `datetime.combine(ref_date, t).replace(tzinfo=tz).astimezone(UTC)`: the
wall clock `secs` past local midnight of day `d` in `tz`, as a UTC instant. -/
def combineToUtc (tz : Tz) (d : Int) (secs : Int) : Int :=
  d * daySecs + secs - tz.offset

/-- The range validation performed by `datetime.time(hour, minute, second)`. -/
def timeOk (h m s : Int) : Prop :=
  0 ≤ h ∧ h ≤ 23 ∧ 0 ≤ m ∧ m ≤ 59 ∧ 0 ≤ s ∧ s ≤ 59

instance (h m s : Int) : Decidable (timeOk h m s) := by
  unfold timeOk; infer_instance

/-- `[int(p) for p in config_val.split(":")]`: all fields must parse,
left to right, or the whole comprehension raises. -/
def parseFields : List (Option Int) → Option (List Int)
  | [] => some []
  | none :: _ => none
  | some n :: rest => (parseFields rest).map (fun l => n :: l)

/-- `_resolve_time`: turn a time spec plus a calendar date, timezone and solar
callback into a UTC instant; `Except.error ()` models the raised `ValueError`. -/
def resolveTime (spec : TimeSpec) (refDate : Int) (tz : Tz)
    (sunCb : Option (SunEvent → Int → Option Int)) : Except Unit Int :=
  match spec with
  | .sunrise =>
    match sunCb with
    | none => .error ()
    | some cb =>
      match cb .sunrise refDate with
      | none => .error ()
      | some dt => .ok dt
  | .sunset =>
    match sunCb with
    | none => .error ()
    | some cb =>
      match cb .sunset refDate with
      | none => .error ()
      | some dt => .ok dt
  | .clock fields =>
    match parseFields fields with
    | none => .error ()
    | some parts =>
      match parts with
      | [h, m] =>
        if timeOk h m 0 then .ok (combineToUtc tz refDate (h * 3600 + m * 60))
        else .error ()
      | [h, m, s] =>
        if timeOk h m s then
          .ok (combineToUtc tz refDate (h * 3600 + m * 60 + s))
        else .error ()
      | _ => .error ()

/-- The inner helper `get_window(ref_date)` of the root branch: resolve both
specs at `refDate`, add the offsets, then apply midnight-crossing
normalization (`if e <= s: e += timedelta(days=1)`). -/
def getWindow (cfg : Config) (tz : Tz)
    (sunCb : Option (SunEvent → Int → Option Int)) (refDate : Int) :
    Except Unit (Int × Int) :=
  match cfg.startSpec, cfg.endSpec with
  | some ss, some es =>
    match resolveTime ss refDate tz sunCb with
    | .error e => .error e
    | .ok s0 =>
      match resolveTime es refDate tz sunCb with
      | .error e => .error e
      | .ok e0 =>
        let s := s0 + cfg.startOffset
        let e := e0 + cfg.endOffset
        if e ≤ s then .ok (s, e + daySecs) else .ok (s, e)
  | _, _ => .error ()

/-- The bounded forward search (`for _ in range(365)`), one fuel unit per loop
iteration: while `now_utc >= end_utc`, advance the reference date by one day
and recompute the window. -/
def searchLoop (cfg : Config) (tz : Tz)
    (sunCb : Option (SunEvent → Int → Option Int)) (now : Int) :
    Nat → Int → Int × Int → Except Unit (Int × (Int × Int))
  | 0, d, w => .ok (d, w)
  | Nat.succ n, d, w =>
    if w.2 ≤ now then
      match getWindow cfg tz sunCb (d + 1) with
      | .error e => .error e
      | .ok w2 => searchLoop cfg tz sunCb now n (d + 1) w2
    else .ok (d, w)

/-- The timezone chosen at the top of `update_boundaries` for the root branch:
the `ZoneInfo` of the configured override when that lookup succeeds, otherwise
the default timezone. -/
def rootTz (cfg : Config) (inp : Inputs) : Tz :=
  if !cfg.isChild && strTruthy cfg.tzOverride then
    match cfg.tzOverride with
    | some s => (inp.zoneDB s).getD inp.defaultTz
    | none => inp.defaultTz
  else inp.defaultTz

/-- Steps A–C of the root branch: a window for today's local date, the bounded
forward search, then the previous-day check `if now_utc < start_utc`. -/
def rootWindow (cfg : Config) (tz : Tz)
    (sunCb : Option (SunEvent → Int → Option Int)) (now : Int) :
    Except Unit (Int × Int) :=
  let targetDate := localDate tz now
  match getWindow cfg tz sunCb targetDate with
  | .error e => .error e
  | .ok w0 =>
    match searchLoop cfg tz sunCb now 365 targetDate w0 with
    | .error e => .error e
    | .ok dw =>
      if now < dw.2.1 then
        match getWindow cfg tz sunCb (dw.1 - 1) with
        | .error e => .error e
        | .ok pw => if pw.1 ≤ now ∧ now < pw.2 then .ok pw else .ok dw.2
      else .ok dw.2

/-- `_calculate_next_update`: the transition scheduler, writing
`_next_update_utc` from `now_utc` and the calculated boundaries. -/
def calcNextUpdate (st : SensorState) (now : Int) : SensorState :=
  match st.calculatedStartUtc, st.calculatedEndUtc with
  | some s, some e =>
    if now < s then { st with nextUpdateUtc := some s }
    else if now < e then { st with nextUpdateUtc := some e }
    else { st with nextUpdateUtc := some (s + daySecs) }
  | _, _ => { st with nextUpdateUtc := none }

/-- `is_on(now_utc)`: the active predicate over the half-open interval. -/
def is_on (st : SensorState) (now : Int) : Bool :=
  match st.calculatedStartUtc, st.calculatedEndUtc with
  | some s, some e => decide (s ≤ now ∧ now < e)
  | _, _ => false

/-- The child branch of `update_boundaries` (step 2): anchor selection by
`start_ref` / `end_ref`, offset arithmetic, and the `end <= start` check. -/
def childUpdate (cfg : Config) (st : SensorState) (inp : Inputs) :
    SensorState × Bool :=
  match inp.parentAttributes with
  | none => (st, false)
  | some pa =>
    let st1 := if strTruthy pa.timezone then
        { st with resolvedTimezoneStr := pa.timezone } else st
    match pa.startTimeUtc, pa.endTimeUtc with
    | some sv, some ev =>
      match sv, ev with
      | some pStart, some pEnd =>
        let refS := if cfg.startRef = "start" then pStart else pEnd
        let refE := if cfg.endRef = "start" then pStart else pEnd
        let st2 := { st1 with
          calculatedStartUtc := some (refS + cfg.startOffset),
          calculatedEndUtc := some (refE + cfg.endOffset) }
        if refE + cfg.endOffset ≤ refS + cfg.startOffset then (st2, false)
        else (calcNextUpdate st2 inp.nowUtc, true)
      | _, _ => (st1, false)
    | _, _ => (st1, false)

/-- `update_boundaries`: the single update entry point, returning the new
Computed State together with the success flag. -/
def updateBoundaries (cfg : Config) (st : SensorState) (inp : Inputs) :
    SensorState × Bool :=
  let st0 := if !cfg.isChild then
      { st with resolvedTimezoneStr := some (pyOrStr cfg.tzOverride inp.defaultTzStr) }
    else st
  if cfg.isChild then childUpdate cfg st0 inp
  else
    match rootWindow cfg (rootTz cfg inp) inp.sunCb inp.nowUtc with
    | .error _ => (st0, false)
    | .ok w =>
      let st1 := { st0 with
        calculatedStartUtc := some w.1, calculatedEndUtc := some w.2 }
      (calcNextUpdate st1 inp.nowUtc, true)



/-! ### Shared concrete fixtures -/

/-- A `09:00:00`–`17:00:00` UTC root configuration. -/
def workCfg : Config :=
  ⟨false, some (.clock [some 9, some 0, some 0]),
    some (.clock [some 17, some 0, some 0]), 0, 0, none, "start", "end"⟩

/-- Inputs with the given `now`, UTC default timezone, no solar callback, and
no parent attributes. -/
def plainInp (now : Int) : Inputs :=
  ⟨now, ⟨0⟩, "UTC", none, none, fun _ => none⟩

/-- The initial, fully unset Computed State. -/
def initState : SensorState := ⟨none, none, none, none⟩

/-- A child configuration with reversed references (`start_ref="end"`,
`end_ref="start"`) and zero offsets. -/
def reversedCfg : Config := ⟨true, none, none, 0, 0, none, "end", "start"⟩

/-- Inputs carrying the parent window `09:00–17:00` of day 0. -/
def parentInp (now : Int) : Inputs :=
  ⟨now, ⟨0⟩, "UTC", none, some ⟨none, some (some 32400), some (some 61200)⟩,
    fun _ => none⟩

/-- A root configuration whose per-day windows overlap: `08:00:00` to
`08:00:00` with a 25-hour end offset. -/
def overlapCfg : Config :=
  ⟨false, some (.clock [some 8, some 0, some 0]),
    some (.clock [some 8, some 0, some 0]), 0, 90000, none, "start", "end"⟩

/-- The midnight-crossing root configuration `22:00:00` to `06:00:00`. -/
def nightCfg : Config :=
  ⟨false, some (.clock [some 22, some 0, some 0]),
    some (.clock [some 6, some 0, some 0]), 0, 0, none, "start", "end"⟩

/-- The one-hour root configuration `08:00:00` to `09:00:00`. -/
def gapCfg : Config :=
  ⟨false, some (.clock [some 8, some 0, some 0]),
    some (.clock [some 9, some 0, some 0]), 0, 0, none, "start", "end"⟩

/-- The solar root configuration `sunrise` to `sunset`. -/
def sunCfg : Config := ⟨false, some .sunrise, some .sunset, 0, 0, none, "start", "end"⟩

/-- Inputs whose solar callback returns the epoch instant 0 for every event
and date. -/
def constSunInp (now : Int) : Inputs :=
  ⟨now, ⟨0⟩, "UTC", some (fun _ _ => some 0), none, fun _ => none⟩

/-! ### Helper lemmas -/

lemma calcNextUpdate_next (st : SensorState) (now s e : Int)
    (hs : st.calculatedStartUtc = some s) (he : st.calculatedEndUtc = some e) :
    (calcNextUpdate st now).nextUpdateUtc =
      some (if now < s then s else if now < e then e else s + daySecs) := by
  by_cases h1 : now < s
  · simp [calcNextUpdate, hs, he, h1]
  · by_cases h2 : now < e
    · simp [calcNextUpdate, hs, he, h1, h2]
    · simp [calcNextUpdate, hs, he, h1, h2]

lemma calcNextUpdate_some (s e : Int) (n : Option Int) (r : Option String)
    (now : Int) :
    calcNextUpdate ⟨some s, some e, n, r⟩ now =
      ⟨some s, some e,
        some (if now < s then s else if now < e then e else s + daySecs), r⟩ := by
  by_cases h1 : now < s
  · simp [calcNextUpdate, h1]
  · by_cases h2 : now < e
    · simp [calcNextUpdate, h1, h2]
    · simp [calcNextUpdate, h1, h2]

lemma calcNextUpdate_preserves (st : SensorState) (now : Int) :
    (calcNextUpdate st now).calculatedStartUtc = st.calculatedStartUtc ∧
    (calcNextUpdate st now).calculatedEndUtc = st.calculatedEndUtc ∧
    (calcNextUpdate st now).resolvedTimezoneStr = st.resolvedTimezoneStr := by
  rcases hs : st.calculatedStartUtc with _ | s <;>
    rcases he : st.calculatedEndUtc with _ | e <;>
    simp [calcNextUpdate, hs, he] <;> split_ifs <;> simp

/-- Every successful update ends by running the transition scheduler on a
state whose two boundaries are set. -/
lemma update_true_calc (cfg : Config) (st : SensorState) (inp : Inputs)
    (st1 : SensorState) (hu : updateBoundaries cfg st inp = (st1, true)) :
    ∃ s e n r, st1 = calcNextUpdate ⟨some s, some e, n, r⟩ inp.nowUtc := by
  by_cases hc : cfg.isChild
  · simp only [updateBoundaries, hc, Bool.not_true, Bool.false_eq_true, if_false,
      if_true] at hu
    rcases hpa : inp.parentAttributes with _ | pa
    · simp only [childUpdate, hpa] at hu
      simp at hu
    · simp only [childUpdate, hpa] at hu
      rcases hA : pa.startTimeUtc with _ | (_ | ps) <;>
        rcases hB : pa.endTimeUtc with _ | (_ | pe) <;>
        simp only [hA, hB] at hu
      all_goals repeat' split at hu
      all_goals first
        | exact ⟨_, _, _, _, (congrArg Prod.fst hu).symm⟩
        | simp at hu
  · simp only [updateBoundaries, hc, Bool.not_false, if_true, if_false] at hu
    rcases hr : rootWindow cfg (rootTz cfg inp) inp.sunCb inp.nowUtc with er | w <;>
      simp only [hr] at hu
    · simp at hu
    · exact ⟨_, _, _, _, (congrArg Prod.fst hu).symm⟩

/-! ### C5 -/

/-- C5: `is_on(now_utc)` is true iff both boundaries are set and
`start_utc ≤ now_utc < end_utc`; and for any window with `start < end` the
predicate is true at the start instant and false at the end instant
(half-open interval). -/
theorem C5_is_on_half_open (st : SensorState) (now : Int) :
    (is_on st now = true ↔
      ∃ s e, st.calculatedStartUtc = some s ∧ st.calculatedEndUtc = some e ∧
        s ≤ now ∧ now < e) ∧
    (∀ s e, st.calculatedStartUtc = some s → st.calculatedEndUtc = some e →
      s < e → is_on st s = true ∧ is_on st e = false) := by
  constructor
  · rcases hs : st.calculatedStartUtc with _ | s <;>
      rcases he : st.calculatedEndUtc with _ | e <;> simp [is_on, hs, he]
  · intro s e hs he hlt
    constructor
    · simp only [is_on, hs, he, decide_eq_true_eq]
      exact ⟨le_refl s, hlt⟩
    · simp only [is_on, hs, he, decide_eq_false_iff_not]
      exact fun h => absurd h.2 (lt_irrefl e)

/-- Witness for C5 at the concrete window `[0, 10)`. -/
theorem C5_witness :
    is_on ⟨some 0, some 10, none, none⟩ 0 = true ∧
    is_on ⟨some 0, some 10, none, none⟩ 10 = false :=
  (C5_is_on_half_open ⟨some 0, some 10, none, none⟩ 0).2 0 10 rfl rfl (by decide)

/-! ### C6 -/

/-- C6: the transition scheduler returns `start` when `now < start`, `end`
when `start ≤ now < end`, and `start + 24h` otherwise; and every successful
update populates `nextUpdateUtc` with exactly this value computed for the
freshly resolved pair. -/
theorem C6_next_transition :
    (∀ st now s e, st.calculatedStartUtc = some s → st.calculatedEndUtc = some e →
      ((now < s → (calcNextUpdate st now).nextUpdateUtc = some s) ∧
       (s ≤ now → now < e → (calcNextUpdate st now).nextUpdateUtc = some e) ∧
       (s ≤ now → e ≤ now →
         (calcNextUpdate st now).nextUpdateUtc = some (s + daySecs)))) ∧
    (∀ cfg st inp st1, updateBoundaries cfg st inp = (st1, true) →
      ∃ s e, st1.calculatedStartUtc = some s ∧ st1.calculatedEndUtc = some e ∧
        st1.nextUpdateUtc = some (if inp.nowUtc < s then s
          else if inp.nowUtc < e then e else s + daySecs)) := by
  constructor
  · intro st now s e hs he
    rw [calcNextUpdate_next st now s e hs he]
    refine ⟨?_, ?_, ?_⟩
    · intro h1
      rw [if_pos h1]
    · intro h1 h2
      have hns : ¬ now < s := by omega
      rw [if_neg hns, if_pos h2]
    · intro h1 h2
      have hns : ¬ now < s := by omega
      have hne : ¬ now < e := by omega
      rw [if_neg hns, if_neg hne]
  · intro cfg st inp st1 hu
    obtain ⟨s, e, n, r, rfl⟩ := update_true_calc cfg st inp st1 hu
    refine ⟨s, e, ?_, ?_, ?_⟩
    · exact (calcNextUpdate_preserves ⟨some s, some e, n, r⟩ inp.nowUtc).1
    · exact (calcNextUpdate_preserves ⟨some s, some e, n, r⟩ inp.nowUtc).2.1
    · exact calcNextUpdate_next _ _ s e rfl rfl

/-- Witness for C6: the scheduler at a concrete state, and the concrete
successful update of the `09:00–17:00` root window evaluated at `10:00`. -/
theorem C6_witness :
    (calcNextUpdate ⟨some 100, some 200, none, none⟩ 50).nextUpdateUtc = some 100 ∧
    (∃ s e,
      (⟨some 32400, some 61200, some 61200, some "UTC"⟩ : SensorState).calculatedStartUtc = some s ∧
      (⟨some 32400, some 61200, some 61200, some "UTC"⟩ : SensorState).calculatedEndUtc = some e ∧
      (⟨some 32400, some 61200, some 61200, some "UTC"⟩ : SensorState).nextUpdateUtc =
        some (if (plainInp 36000).nowUtc < s then s
          else if (plainInp 36000).nowUtc < e then e else s + daySecs)) :=
  ⟨(C6_next_transition.1 ⟨some 100, some 200, none, none⟩ 50 100 200 rfl rfl).1
      (by decide),
   C6_next_transition.2 workCfg initState (plainInp 36000)
      ⟨some 32400, some 61200, some 61200, some "UTC"⟩ (by decide)⟩



/-! ### C7 -/

lemma parseFields_inv (l : List (Option Int)) (parts : List Int)
    (hp : parseFields l = some parts) : l = parts.map some := by
  induction l generalizing parts with
  | nil => simp [parseFields] at hp; simp [← hp]
  | cons x rest ih =>
    rcases x with _ | n
    · simp [parseFields] at hp
    · simp only [parseFields, Option.map_eq_some'] at hp
      obtain ⟨l2, hl2, rfl⟩ := hp
      simp [ih l2 hl2]

lemma parseFields_map (parts : List Int) :
    parseFields (parts.map some) = some parts := by
  induction parts with
  | nil => rfl
  | cons n rest ih => simp [parseFields, ih]

lemma resolveTime_clock_long (a b c x : Option Int) (rest : List (Option Int))
    (d : Int) (tz : Tz) (cb : Option (SunEvent → Int → Option Int)) :
    resolveTime (.clock (a :: b :: c :: x :: rest)) d tz cb = .error () := by
  rcases hp : parseFields (a :: b :: c :: x :: rest) with _ | parts
  · simp [resolveTime, hp]
  · have hinv := parseFields_inv _ _ hp
    rcases parts with _ | ⟨p1, _ | ⟨p2, _ | ⟨p3, _ | ⟨p4, ps⟩⟩⟩⟩
    · simp at hinv
    · simp at hinv
    · simp at hinv
    · simp at hinv
    · simp [resolveTime, hp]

/-- Value-level characterization of `_resolve_time` on clock specs. -/
lemma resolveTime_clock_ok (f : List (Option Int)) (d : Int) (tz : Tz)
    (cb : Option (SunEvent → Int → Option Int)) (t : Int) :
    resolveTime (.clock f) d tz cb = .ok t ↔
      ((∃ h m, f = [some h, some m] ∧ timeOk h m 0 ∧
          t = combineToUtc tz d (h * 3600 + m * 60)) ∨
       (∃ h m s, f = [some h, some m, some s] ∧ timeOk h m s ∧
          t = combineToUtc tz d (h * 3600 + m * 60 + s))) := by
  constructor
  · intro hok
    rcases f with _ | ⟨a, f⟩
    · simp [resolveTime, parseFields] at hok
    rcases a with _ | h
    · simp [resolveTime, parseFields] at hok
    rcases f with _ | ⟨b, f⟩
    · simp [resolveTime, parseFields] at hok
    rcases b with _ | m
    · simp [resolveTime, parseFields] at hok
    rcases f with _ | ⟨c, f⟩
    · by_cases hok2 : timeOk h m 0
      · left
        refine ⟨h, m, rfl, hok2, ?_⟩
        simp [resolveTime, parseFields, hok2] at hok
        first
          | exact hok
          | exact hok.symm
      · simp [resolveTime, parseFields, hok2] at hok
    rcases c with _ | sf
    · simp [resolveTime, parseFields] at hok
    rcases f with _ | ⟨x, f⟩
    · by_cases hok2 : timeOk h m sf
      · right
        refine ⟨h, m, sf, rfl, hok2, ?_⟩
        simp [resolveTime, parseFields, hok2] at hok
        first
          | exact hok
          | exact hok.symm
      · simp [resolveTime, parseFields, hok2] at hok
    · rw [resolveTime_clock_long] at hok
      exact absurd hok (by simp)
  · intro hsh
    rcases hsh with ⟨h, m, rfl, hok, rfl⟩ | ⟨h, m, s, rfl, hok, rfl⟩
    · have hpm : parseFields [some h, some m] = some [h, m] := parseFields_map [h, m]
      simp [resolveTime, hpm, hok]
    · have hpm : parseFields [some h, some m, some s] = some [h, m, s] :=
        parseFields_map [h, m, s]
      simp [resolveTime, hpm, hok]

/-- C7: the time-spec resolver fails on `sunrise`/`sunset` exactly when the
solar function is absent or yields nothing, and otherwise returns its instant;
on any other spec it succeeds exactly on 2 or 3 colon-separated integer fields
within `datetime.time` ranges, returning the local wall-clock combination of
date and time-of-day converted to UTC. -/
theorem C7_resolver (d : Int) (tz : Tz)
    (cb : Option (SunEvent → Int → Option Int)) :
    (∀ t, resolveTime .sunrise d tz cb = .ok t ↔
      ∃ f, cb = some f ∧ f .sunrise d = some t) ∧
    (∀ t, resolveTime .sunset d tz cb = .ok t ↔
      ∃ f, cb = some f ∧ f .sunset d = some t) ∧
    (∀ fields t, resolveTime (.clock fields) d tz cb = .ok t ↔
      ((∃ h m, fields = [some h, some m] ∧ timeOk h m 0 ∧
          t = combineToUtc tz d (h * 3600 + m * 60)) ∨
       (∃ h m s, fields = [some h, some m, some s] ∧ timeOk h m s ∧
          t = combineToUtc tz d (h * 3600 + m * 60 + s)))) := by
  refine ⟨?_, ?_, fun fields t => resolveTime_clock_ok fields d tz cb t⟩
  · intro t
    rcases cb with _ | f
    · simp [resolveTime]
    · rcases hs : f .sunrise d with _ | v <;> simp [resolveTime, hs]
  · intro t
    rcases cb with _ | f
    · simp [resolveTime]
    · rcases hs : f .sunset d with _ | v <;> simp [resolveTime, hs]

/-- Witness for C7: `"08:30"` on day 0 in UTC resolves to 30600 s, and a
sunrise spec with a concrete solar callback resolves to its value. -/
theorem C7_witness :
    resolveTime (.clock [some 8, some 30]) 0 ⟨0⟩ none = .ok 30600 ∧
    resolveTime .sunrise 0 ⟨0⟩ (some fun _ _ => some 21600) = .ok 21600 :=
  ⟨((C7_resolver 0 ⟨0⟩ none).2.2 [some 8, some 30] 30600).mpr
      (Or.inl ⟨8, 30, rfl, by decide, by decide⟩),
   ((C7_resolver 0 ⟨0⟩ (some fun _ _ => some 21600)).1 21600).mpr
      ⟨fun _ _ => some 21600, rfl, rfl⟩⟩


/-! ### C4 -/

/-- C4: in child mode with present, parseable parent boundaries, the update
computes `start = anchor(start_ref) + start_offset` and
`end = anchor(end_ref) + end_offset` by pure anchor arithmetic (no date
search, no midnight-crossing correction), and it succeeds iff the resulting
`end > start`. -/
theorem C4_child_arithmetic (cfg : Config) (st : SensorState) (inp : Inputs)
    (pa : ParentAttrs) (pStart pEnd : Int)
    (hc : cfg.isChild = true)
    (hpa : inp.parentAttributes = some pa)
    (hs : pa.startTimeUtc = some (some pStart))
    (he : pa.endTimeUtc = some (some pEnd)) :
    ((updateBoundaries cfg st inp).2 = true ↔
      (if cfg.startRef = "start" then pStart else pEnd) + cfg.startOffset <
        (if cfg.endRef = "start" then pStart else pEnd) + cfg.endOffset) ∧
    (updateBoundaries cfg st inp).1.calculatedStartUtc =
      some ((if cfg.startRef = "start" then pStart else pEnd) + cfg.startOffset) ∧
    (updateBoundaries cfg st inp).1.calculatedEndUtc =
      some ((if cfg.endRef = "start" then pStart else pEnd) + cfg.endOffset) := by
  simp only [updateBoundaries, hc, Bool.not_true, Bool.false_eq_true, if_false,
    if_true]
  simp only [childUpdate, hpa, hs, he]
  by_cases hle : (if cfg.endRef = "start" then pStart else pEnd) + cfg.endOffset ≤
      (if cfg.startRef = "start" then pStart else pEnd) + cfg.startOffset
  · rw [if_pos hle]
    exact ⟨iff_of_false (by simp) (by omega), rfl, rfl⟩
  · rw [if_neg hle]
    refine ⟨iff_of_true rfl (by omega), ?_, ?_⟩
    · exact (calcNextUpdate_preserves _ _).1
    · exact (calcNextUpdate_preserves _ _).2.1

/-- Witness for C4 at the parent window `09:00–17:00` and a child spanning
the parent's first 30 minutes. -/
theorem C4_witness :
    ((updateBoundaries ⟨true, none, none, 0, 1800, none, "start", "start"⟩
        initState
        ⟨33300, ⟨0⟩, "UTC", none, some ⟨none, some (some 32400), some (some 61200)⟩,
          fun _ => none⟩).2 = true ↔
      (if ("start" : String) = "start" then (32400 : Int) else 61200) + 0 <
        (if ("start" : String) = "start" then (32400 : Int) else 61200) + 1800) ∧
    (updateBoundaries ⟨true, none, none, 0, 1800, none, "start", "start"⟩
        initState
        ⟨33300, ⟨0⟩, "UTC", none, some ⟨none, some (some 32400), some (some 61200)⟩,
          fun _ => none⟩).1.calculatedStartUtc =
      some ((if ("start" : String) = "start" then (32400 : Int) else 61200) + 0) ∧
    (updateBoundaries ⟨true, none, none, 0, 1800, none, "start", "start"⟩
        initState
        ⟨33300, ⟨0⟩, "UTC", none, some ⟨none, some (some 32400), some (some 61200)⟩,
          fun _ => none⟩).1.calculatedEndUtc =
      some ((if ("start" : String) = "start" then (32400 : Int) else 61200) + 1800) :=
  C4_child_arithmetic _ initState _ ⟨none, some (some 32400), some (some 61200)⟩
    32400 61200 rfl rfl rfl rfl


/-! ### C1 -/

/-- C1 is refuted: this child-mode update with reversed references fails
(returns `false`) yet overwrites the previously unset boundaries, so the
Computed State is not what it was before the call. -/
theorem C1_counterexample :
    (updateBoundaries reversedCfg initState (parentInp 43200)).2 = false ∧
    (updateBoundaries reversedCfg initState (parentInp 43200)).1 ≠ initState := by
  decide


/-- C1 amended: a failed update never changes `nextUpdateUtc`; it leaves both
boundaries unchanged except in the child-mode case with present, parseable
parent boundaries whose anchored-and-offset pair has `end ≤ start`, in which
case both boundaries are overwritten with that rejected pair
(`resolvedTimezoneStr`, by contrast, may be rewritten even by a failing
call). -/
theorem C1_amended_failure_effects (cfg : Config) (st : SensorState)
    (inp : Inputs) (st1 : SensorState)
    (hu : updateBoundaries cfg st inp = (st1, false)) :
    st1.nextUpdateUtc = st.nextUpdateUtc ∧
    (cfg.isChild = false →
      st1.calculatedStartUtc = st.calculatedStartUtc ∧
      st1.calculatedEndUtc = st.calculatedEndUtc) ∧
    (cfg.isChild = true →
      ((st1.calculatedStartUtc = st.calculatedStartUtc ∧
        st1.calculatedEndUtc = st.calculatedEndUtc) ∨
       (∃ pa ps pe, inp.parentAttributes = some pa ∧
          pa.startTimeUtc = some (some ps) ∧ pa.endTimeUtc = some (some pe) ∧
          (if cfg.endRef = "start" then ps else pe) + cfg.endOffset ≤
            (if cfg.startRef = "start" then ps else pe) + cfg.startOffset ∧
          st1.calculatedStartUtc =
            some ((if cfg.startRef = "start" then ps else pe) + cfg.startOffset) ∧
          st1.calculatedEndUtc =
            some ((if cfg.endRef = "start" then ps else pe) + cfg.endOffset)))) := by
  by_cases hc : cfg.isChild
  · simp only [updateBoundaries, hc, Bool.not_true, Bool.false_eq_true, if_false,
      if_true] at hu
    rcases hpa : inp.parentAttributes with _ | pa
    · simp only [childUpdate, hpa] at hu
      obtain ⟨rfl, -⟩ : st = st1 ∧ False = False := by
        simpa [Prod.mk.injEq] using hu
      exact ⟨rfl, fun hcf => by simp [hcf] at hc, fun _ => Or.inl ⟨rfl, rfl⟩⟩
    · simp only [childUpdate, hpa] at hu
      rcases ht : strTruthy pa.timezone with _ | _ <;>
        rcases hA : pa.startTimeUtc with _ | (_ | ps) <;>
        rcases hB : pa.endTimeUtc with _ | (_ | pe) <;>
        simp only [hA, hB, ht, Bool.false_eq_true, Bool.true_eq_false, if_false,
          if_true] at hu
      all_goals
        (repeat' split at hu) <;>
          ((try simp only [Prod.mk.injEq, Bool.true_eq_false, and_false] at hu) <;>
           (try obtain ⟨rfl, -⟩ := hu) <;>
           (first
             | exact ⟨rfl, fun hcf => by simp [hcf] at hc,
                 fun _ => Or.inl ⟨rfl, rfl⟩⟩
             | (refine ⟨rfl, fun hcf => by simp [hcf] at hc,
                  fun _ => Or.inr ⟨pa, ps, pe, rfl, hA, hB, ?_, ?_, ?_⟩⟩ <;>
                  simp_all)))
  · simp only [Bool.not_eq_true] at hc
    simp only [updateBoundaries, hc, Bool.not_false, if_true, if_false,
      Bool.false_eq_true] at hu
    rcases hr : rootWindow cfg (rootTz cfg inp) inp.sunCb inp.nowUtc with er | w <;>
      simp only [hr] at hu
    · simp only [Prod.mk.injEq] at hu
      obtain ⟨rfl, -⟩ := hu
      exact ⟨rfl, fun _ => ⟨rfl, rfl⟩, fun hcf => by simp [hcf] at hc⟩
    · simp at hu

/-- Witness for C1 amended, at a failing root update (missing specs). -/
theorem C1_amended_witness :
    ((updateBoundaries ⟨false, none, none, 0, 0, none, "start", "end"⟩ initState
        (plainInp 0)).1.nextUpdateUtc = initState.nextUpdateUtc) ∧
    ((⟨false, none, none, 0, 0, none, "start", "end"⟩ : Config).isChild = false →
      (updateBoundaries ⟨false, none, none, 0, 0, none, "start", "end"⟩ initState
        (plainInp 0)).1.calculatedStartUtc = initState.calculatedStartUtc ∧
      (updateBoundaries ⟨false, none, none, 0, 0, none, "start", "end"⟩ initState
        (plainInp 0)).1.calculatedEndUtc = initState.calculatedEndUtc) := by
  have h := C1_amended_failure_effects
    ⟨false, none, none, 0, 0, none, "start", "end"⟩ initState (plainInp 0)
    (updateBoundaries ⟨false, none, none, 0, 0, none, "start", "end"⟩ initState
      (plainInp 0)).1 (by decide)
  exact ⟨h.1, h.2.1⟩


/-! ### Lemmas on the forward search and root windows -/

/-- The forward search inspects consecutive dates: the settled date carries a
`get_window` output, every strictly earlier inspected date has a window
ending at or before `now`, at most `fuel` advances happen, and a returned
window still ending at or before `now` means the fuel was exhausted. -/
lemma searchLoop_spec (cfg : Config) (tz : Tz)
    (sunCb : Option (SunEvent → Int → Option Int)) (now : Int) :
    ∀ (fuel : Nat) (d : Int) (w : Int × Int) (dS : Int) (wS : Int × Int),
      getWindow cfg tz sunCb d = .ok w →
      searchLoop cfg tz sunCb now fuel d w = .ok (dS, wS) →
      (d ≤ dS ∧ dS ≤ d + fuel ∧
       getWindow cfg tz sunCb dS = .ok wS ∧
       (∀ d2, d ≤ d2 → d2 < dS →
          ∃ w2, getWindow cfg tz sunCb d2 = .ok w2 ∧ w2.2 ≤ now) ∧
       (wS.2 ≤ now → dS = d + fuel)) := by
  intro fuel
  induction fuel with
  | zero =>
    intro d w dS wS hg hs
    simp only [searchLoop, Except.ok.injEq, Prod.mk.injEq] at hs
    obtain ⟨rfl, rfl⟩ := hs
    exact ⟨le_refl d, by omega, hg,
      fun d2 h1 h2 => absurd h2 (by omega), fun _ => by omega⟩
  | succ n ih =>
    intro d w dS wS hg hs
    simp only [searchLoop] at hs
    split at hs
    · rcases hg2 : getWindow cfg tz sunCb (d + 1) with er | w2 <;> rw [hg2] at hs
      · simp at hs
      · obtain ⟨h1, h2, h3, h4, h5⟩ := ih (d + 1) w2 dS wS hg2 hs
        refine ⟨by omega, by omega, h3, ?_, fun hx => by have := h5 hx; omega⟩
        intro d2 hd2 hd2x
        rcases eq_or_lt_of_le hd2 with rfl | hlt
        · exact ⟨w, hg, by assumption⟩
        · exact h4 d2 (by omega) hd2x
    · simp only [Except.ok.injEq, Prod.mk.injEq] at hs
      obtain ⟨rfl, rfl⟩ := hs
      exact ⟨le_refl d, by omega, hg,
        fun d2 h1 h2 => absurd h2 (by omega),
        fun hx => absurd hx (by assumption)⟩

/-- Every window returned by the root calculation is a `get_window` output
for some reference date. -/
lemma rootWindow_from_getWindow (cfg : Config) (tz : Tz)
    (sunCb : Option (SunEvent → Int → Option Int)) (now : Int)
    (w : Int × Int) (hr : rootWindow cfg tz sunCb now = .ok w) :
    ∃ d, getWindow cfg tz sunCb d = .ok w := by
  simp only [rootWindow] at hr
  rcases h0 : getWindow cfg tz sunCb (localDate tz now) with er | w0 <;>
    simp only [h0] at hr
  · exact absurd hr (by simp)
  rcases hsl : searchLoop cfg tz sunCb now 365 (localDate tz now) w0
      with er | dw <;> simp only [hsl] at hr
  · exact absurd hr (by simp)
  have hset := searchLoop_spec cfg tz sunCb now 365 (localDate tz now) w0
    dw.1 dw.2 h0 (by rw [hsl])
  split at hr
  · rcases hp : getWindow cfg tz sunCb (dw.1 - 1) with er | pw <;>
      simp only [hp] at hr
    · exact absurd hr (by simp)
    · split at hr
      · simp only [Except.ok.injEq] at hr
        exact ⟨dw.1 - 1, by rw [hp, hr]⟩
      · simp only [Except.ok.injEq] at hr
        exact ⟨dw.1, by rw [hset.2.2.1, hr]⟩
  · simp only [Except.ok.injEq] at hr
    exact ⟨dw.1, by rw [hset.2.2.1, hr]⟩

/-- A clock-spec resolution lands inside the resolved calendar day. -/
lemma resolveTime_clock_bounds (f : List (Option Int)) (d : Int) (tz : Tz)
    (cb : Option (SunEvent → Int → Option Int)) (t : Int)
    (h : resolveTime (.clock f) d tz cb = .ok t) :
    d * daySecs - tz.offset ≤ t ∧ t < d * daySecs + daySecs - tz.offset := by
  rcases (resolveTime_clock_ok f d tz cb t).mp h with
    ⟨h1, m1, -, hok, rfl⟩ | ⟨h1, m1, s1, -, hok, rfl⟩ <;>
  · obtain ⟨a1, a2, a3, a4, a5, a6⟩ := hok
    simp only [combineToUtc, daySecs] at *
    omega

/-- With clock-time specs and `start_offset ≤ end_offset`, every window that
`get_window` produces is strictly increasing. -/
lemma getWindow_clock_proper (cfg : Config) (tz : Tz)
    (sunCb : Option (SunEvent → Int → Option Int)) (d : Int)
    (f1 f2 : List (Option Int))
    (h1 : cfg.startSpec = some (.clock f1)) (h2 : cfg.endSpec = some (.clock f2))
    (hoff : cfg.startOffset ≤ cfg.endOffset)
    (w : Int × Int) (hg : getWindow cfg tz sunCb d = .ok w) : w.1 < w.2 := by
  simp only [getWindow, h1, h2] at hg
  rcases hs : resolveTime (.clock f1) d tz sunCb with er | s0 <;>
    simp only [hs] at hg
  · exact absurd hg (by simp)
  rcases he : resolveTime (.clock f2) d tz sunCb with er | e0 <;>
    simp only [he] at hg
  · exact absurd hg (by simp)
  have hb1 := resolveTime_clock_bounds f1 d tz sunCb s0 hs
  have hb2 := resolveTime_clock_bounds f2 d tz sunCb e0 he
  split at hg <;> simp only [Except.ok.injEq] at hg <;> subst hg <;>
    simp only [daySecs] at * <;> omega


/-! ### C2 -/

/-- A successful child update always sets a strictly increasing pair. -/
lemma childUpdate_success (cfg : Config) (st : SensorState) (inp : Inputs)
    (st1 : SensorState) (hu : childUpdate cfg st inp = (st1, true)) :
    ∃ s e, st1.calculatedStartUtc = some s ∧ st1.calculatedEndUtc = some e ∧
      s < e := by
  rcases hpa : inp.parentAttributes with _ | pa
  · simp [childUpdate, hpa] at hu
  · simp only [childUpdate, hpa] at hu
    rcases ht : strTruthy pa.timezone with _ | _ <;>
      rcases hA : pa.startTimeUtc with _ | (_ | ps) <;>
      rcases hB : pa.endTimeUtc with _ | (_ | pe) <;>
      simp only [hA, hB, ht, Bool.false_eq_true, Bool.true_eq_false, if_false,
        if_true] at hu
    all_goals
      (repeat' split at hu) <;>
        ((try simp only [Prod.mk.injEq, Bool.false_eq_true, and_false] at hu) <;>
         first
           | exact hu.elim
           | (obtain ⟨rfl, -⟩ := hu
              exact ⟨_, _, (calcNextUpdate_preserves _ _).1,
                (calcNextUpdate_preserves _ _).2.1, by omega⟩))

/-- A successful root update records exactly the window that the root
calculation produced. -/
lemma update_root_success (cfg : Config) (st : SensorState) (inp : Inputs)
    (st1 : SensorState) (hc : cfg.isChild = false)
    (hu : updateBoundaries cfg st inp = (st1, true)) :
    ∃ w, rootWindow cfg (rootTz cfg inp) inp.sunCb inp.nowUtc = .ok w ∧
      st1.calculatedStartUtc = some w.1 ∧ st1.calculatedEndUtc = some w.2 := by
  simp only [updateBoundaries, hc, Bool.not_false, if_true, if_false,
    Bool.false_eq_true] at hu
  rcases hr : rootWindow cfg (rootTz cfg inp) inp.sunCb inp.nowUtc with er | w <;>
    simp only [hr] at hu
  · simp at hu
  · simp only [Prod.mk.injEq] at hu
    obtain ⟨rfl, -⟩ := hu
    exact ⟨w, rfl, (calcNextUpdate_preserves _ _).1,
      (calcNextUpdate_preserves _ _).2.1⟩

/-- A failed root update leaves both boundaries unchanged. -/
lemma update_root_failure (cfg : Config) (st : SensorState) (inp : Inputs)
    (st1 : SensorState) (hc : cfg.isChild = false)
    (hu : updateBoundaries cfg st inp = (st1, false)) :
    st1.calculatedStartUtc = st.calculatedStartUtc ∧
    st1.calculatedEndUtc = st.calculatedEndUtc := by
  simp only [updateBoundaries, hc, Bool.not_false, if_true, if_false,
    Bool.false_eq_true] at hu
  rcases hr : rootWindow cfg (rootTz cfg inp) inp.sunCb inp.nowUtc with er | w <;>
    simp only [hr] at hu
  · simp only [Prod.mk.injEq] at hu
    obtain ⟨rfl, -⟩ := hu
    exact ⟨rfl, rfl⟩
  · simp at hu

/-- C2 is refuted: this failing child-mode update (both references anchored
at the parent start, zero offsets) leaves both boundaries set and equal, so
`resolved_end_utc > resolved_start_utc` fails on the resulting state. -/
theorem C2_counterexample :
    (updateBoundaries ⟨true, none, none, 0, 0, none, "start", "start"⟩ initState
        (parentInp 43200)).2 = false ∧
    (updateBoundaries ⟨true, none, none, 0, 0, none, "start", "start"⟩ initState
        (parentInp 43200)).1.calculatedStartUtc = some 32400 ∧
    (updateBoundaries ⟨true, none, none, 0, 0, none, "start", "start"⟩ initState
        (parentInp 43200)).1.calculatedEndUtc = some 32400 ∧
    ¬ (∀ s e : Int,
        (updateBoundaries ⟨true, none, none, 0, 0, none, "start", "start"⟩
            initState (parentInp 43200)).1.calculatedStartUtc = some s →
        (updateBoundaries ⟨true, none, none, 0, 0, none, "start", "start"⟩
            initState (parentInp 43200)).1.calculatedEndUtc = some e →
        s < e) := by
  refine ⟨by decide, by decide, by decide, fun h => ?_⟩
  have := h 32400 32400 (by decide) (by decide)
  omega

/-- C2 amended: the strict invariant `end > start` is established by every
successful child-mode update and by every successful root-mode update whose
specs are clock times with `start_offset ≤ end_offset`; a failed root-mode
update leaves the boundaries unchanged, while a failed child-mode update may
set both boundaries with `end ≤ start` (see the counterexample). -/
theorem C2_amended_strict_invariant (cfg : Config) (st : SensorState)
    (inp : Inputs) (st1 : SensorState) (b : Bool)
    (hu : updateBoundaries cfg st inp = (st1, b)) :
    (cfg.isChild = true → b = true →
      ∀ s e, st1.calculatedStartUtc = some s → st1.calculatedEndUtc = some e →
        s < e) ∧
    (cfg.isChild = false → b = true →
      ∀ f1 f2, cfg.startSpec = some (.clock f1) →
        cfg.endSpec = some (.clock f2) → cfg.startOffset ≤ cfg.endOffset →
      ∀ s e, st1.calculatedStartUtc = some s → st1.calculatedEndUtc = some e →
        s < e) ∧
    (cfg.isChild = false → b = false →
      st1.calculatedStartUtc = st.calculatedStartUtc ∧
      st1.calculatedEndUtc = st.calculatedEndUtc) := by
  refine ⟨?_, ?_, ?_⟩
  · intro hc hb
    subst hb
    have hcu : childUpdate cfg st inp = (st1, true) := by
      simpa only [updateBoundaries, hc, Bool.not_true, Bool.false_eq_true,
        if_false, if_true] using hu
    obtain ⟨s0, e0, h1, h2, hlt⟩ := childUpdate_success cfg st inp st1 hcu
    intro s e hs he
    rw [h1] at hs
    rw [h2] at he
    injection hs with hs
    injection he with he
    omega
  · intro hc hb
    subst hb
    obtain ⟨w, hr, h1, h2⟩ := update_root_success cfg st inp st1 hc hu
    intro f1 f2 hf1 hf2 hoff s e hs he
    obtain ⟨d, hd⟩ := rootWindow_from_getWindow cfg (rootTz cfg inp) inp.sunCb
      inp.nowUtc w hr
    have hlt := getWindow_clock_proper cfg (rootTz cfg inp) inp.sunCb d f1 f2
      hf1 hf2 hoff w hd
    rw [h1] at hs
    rw [h2] at he
    injection hs with hs
    injection he with he
    omega
  · intro hc hb
    subst hb
    exact update_root_failure cfg st inp st1 hc hu

/-- Witness for C2 amended: the concrete successful child update covering the
parent's first 30 minutes yields a strictly increasing pair. -/
theorem C2_amended_witness :
    updateBoundaries ⟨true, none, none, 0, 1800, none, "start", "start"⟩
        initState (parentInp 33300) =
      (⟨some 32400, some 34200, some 34200, none⟩, true) ∧
    (32400 : Int) < 34200 :=
  ⟨by decide,
   (C2_amended_strict_invariant ⟨true, none, none, 0, 1800, none, "start", "start"⟩
      initState (parentInp 33300) ⟨some 32400, some 34200, some 34200, none⟩
      true (by decide)).1 rfl rfl 32400 34200 rfl rfl⟩


/-! ### C10 -/

lemma getWindow_tzOverride (cfg : Config) (tz : Tz)
    (sunCb : Option (SunEvent → Int → Option Int)) (d : Int) :
    getWindow { cfg with tzOverride := none } tz sunCb d =
      getWindow cfg tz sunCb d := rfl

lemma searchLoop_tzOverride (cfg : Config) (tz : Tz)
    (sunCb : Option (SunEvent → Int → Option Int)) (now : Int) :
    ∀ (fuel : Nat) (d : Int) (w : Int × Int),
      searchLoop { cfg with tzOverride := none } tz sunCb now fuel d w =
        searchLoop cfg tz sunCb now fuel d w := by
  intro fuel
  induction fuel with
  | zero => intro d w; rfl
  | succ n ih =>
    intro d w
    simp only [searchLoop, getWindow_tzOverride, ih]

lemma rootWindow_tzOverride (cfg : Config) (tz : Tz)
    (sunCb : Option (SunEvent → Int → Option Int)) (now : Int) :
    rootWindow { cfg with tzOverride := none } tz sunCb now =
      rootWindow cfg tz sunCb now := by
  simp only [rootWindow, getWindow_tzOverride, searchLoop_tzOverride]

/-- C10: with an unrecognized (non-empty) timezone override in root mode, the
update does not fail on that account — it behaves exactly as if no override
were configured (window computed in the default timezone) — while
`resolvedTimezoneStr` nevertheless reports the unrecognized configured
string. -/
theorem C10_unknown_timezone (cfg : Config) (st : SensorState) (inp : Inputs)
    (s : String) (hc : cfg.isChild = false) (ho : cfg.tzOverride = some s)
    (hne : s ≠ "") (hdb : inp.zoneDB s = none) :
    rootTz cfg inp = inp.defaultTz ∧
    (updateBoundaries cfg st inp).1.resolvedTimezoneStr = some s ∧
    updateBoundaries cfg st inp =
      ({ (updateBoundaries { cfg with tzOverride := none } st inp).1 with
          resolvedTimezoneStr := some s },
       (updateBoundaries { cfg with tzOverride := none } st inp).2) := by
  have hst : strTruthy cfg.tzOverride = true := by
    rw [ho]; simp [strTruthy, hne]
  have htz : rootTz cfg inp = inp.defaultTz := by
    simp [rootTz, hc, hst, ho, hdb]
  have htz2 : rootTz { cfg with tzOverride := none } inp = inp.defaultTz := by
    simp [rootTz, strTruthy]
  have hpy : pyOrStr cfg.tzOverride inp.defaultTzStr = s := by
    simp [pyOrStr, ho, hne]
  have hr2 : rootWindow { cfg with tzOverride := none }
      (rootTz { cfg with tzOverride := none } inp) inp.sunCb inp.nowUtc =
      rootWindow cfg (rootTz cfg inp) inp.sunCb inp.nowUtc := by
    rw [htz, htz2, rootWindow_tzOverride]
  have hmain : updateBoundaries cfg st inp =
      ({ (updateBoundaries { cfg with tzOverride := none } st inp).1 with
          resolvedTimezoneStr := some s },
       (updateBoundaries { cfg with tzOverride := none } st inp).2) := by
    rw [hc] at hr2
    simp only [updateBoundaries, hc, Bool.not_false, if_true, if_false,
      Bool.false_eq_true]
    rw [hr2]
    rcases hr : rootWindow cfg (rootTz cfg inp) inp.sunCb inp.nowUtc
        with er | w <;> simp only [hr]
    · simp [hpy]
    · simp only [calcNextUpdate_some]
      simp [hpy]
  exact ⟨htz, by rw [hmain], hmain⟩

/-- Witness for C10: a `09:00–17:00` root sensor with the unknown override
`"Not/AZone"` still succeeds and reports the configured string. -/
theorem C10_witness :
    rootTz ⟨false, some (.clock [some 9, some 0, some 0]),
        some (.clock [some 17, some 0, some 0]), 0, 0, some "Not/AZone",
        "start", "end"⟩ (plainInp 36000) = (plainInp 36000).defaultTz ∧
    (updateBoundaries ⟨false, some (.clock [some 9, some 0, some 0]),
        some (.clock [some 17, some 0, some 0]), 0, 0, some "Not/AZone",
        "start", "end"⟩ initState
        (plainInp 36000)).1.resolvedTimezoneStr = some "Not/AZone" := by
  have h := C10_unknown_timezone
    ⟨false, some (.clock [some 9, some 0, some 0]),
      some (.clock [some 17, some 0, some 0]), 0, 0, some "Not/AZone",
      "start", "end"⟩ initState (plainInp 36000) "Not/AZone" rfl rfl
    (by decide) rfl
  exact ⟨h.1, h.2.1⟩

/-! ### C9 -/

/-- Re-running the child calculation from its own output changes nothing. -/
lemma childUpdate_idem (cfg : Config) (st st1 : SensorState) (inp : Inputs)
    (b : Bool) (hu : childUpdate cfg st inp = (st1, b)) :
    childUpdate cfg st1 inp = (st1, b) := by
  rcases hpa : inp.parentAttributes with _ | pa
  · simp only [childUpdate, hpa] at hu ⊢
    simp only [Prod.mk.injEq] at hu
    obtain ⟨rfl, rfl⟩ := hu
    rfl
  · simp only [childUpdate, hpa] at hu ⊢
    rcases ht : strTruthy pa.timezone with _ | _ <;>
      rcases hA : pa.startTimeUtc with _ | (_ | ps) <;>
      rcases hB : pa.endTimeUtc with _ | (_ | pe) <;>
      simp only [hA, hB, ht, Bool.false_eq_true, Bool.true_eq_false, if_false,
        if_true] at hu ⊢
    all_goals
      (repeat' split at hu) <;>
        ((try simp only [Prod.mk.injEq] at hu) <;>
         (obtain ⟨rfl, rfl⟩ := hu) <;>
         simp_all [calcNextUpdate_some])


/-- C9: idempotence — re-running the update entry point on its own output
with identical inputs produces the identical Computed State and the
identical success result. -/
theorem C9_idempotent (cfg : Config) (st : SensorState) (inp : Inputs) :
    updateBoundaries cfg (updateBoundaries cfg st inp).1 inp =
      updateBoundaries cfg st inp := by
  by_cases hc : cfg.isChild
  · have h1 : ∀ st2, updateBoundaries cfg st2 inp = childUpdate cfg st2 inp := by
      intro st2
      simp [updateBoundaries, hc]
    rcases hcu : childUpdate cfg st inp with ⟨st1, b⟩
    rw [h1 st, hcu, h1]
    exact childUpdate_idem cfg st st1 inp b hcu
  · simp only [updateBoundaries, hc, Bool.not_false, if_true, if_false,
      Bool.false_eq_true]
    rcases hr : rootWindow cfg (rootTz cfg inp) inp.sunCb inp.nowUtc with er | w <;>
      simp only [hr] <;> simp [calcNextUpdate_some]


/-! ### C3 -/

/-- C3 is refuted: with overlapping per-day windows (`08:00`→`08:00` with a
25-hour end offset, evaluated at 08:30), `now` lies strictly inside the
previous day's window, yet the code returns the current candidate because the
previous window is only consulted when `now` is before the candidate's
start. -/
theorem C3_counterexample :
    getWindow overlapCfg ⟨0⟩ none (localDate ⟨0⟩ 30600) = .ok (28800, 118800) ∧
    searchLoop overlapCfg ⟨0⟩ none 30600 365 (localDate ⟨0⟩ 30600)
      (28800, 118800) = .ok (0, (28800, 118800)) ∧
    getWindow overlapCfg ⟨0⟩ none (0 - 1) = .ok (-57600, 32400) ∧
    ((-57600 : Int) ≤ 30600 ∧ (30600 : Int) < 32400) ∧
    (updateBoundaries overlapCfg initState (plainInp 30600)).2 = true ∧
    (updateBoundaries overlapCfg initState (plainInp 30600)).1.calculatedStartUtc =
      some 28800 ∧
    (updateBoundaries overlapCfg initState
      (plainInp 30600)).1.calculatedStartUtc ≠ some (-57600) := by
  decide

/-- C3 amended: the window for `d*-1` is computed only when `now_utc` is
before the settled candidate's start; in that case, whenever `now_utc` lies
inside that previous window, the previous window is the one recorded — in
particular a `22:00→06:00` interval evaluated at `01:00` the following day
yields the previous day's 22:00 start. -/
theorem C3_amended_previous_window (cfg : Config) (st : SensorState)
    (inp : Inputs) (dS : Int) (w pw w0 : Int × Int)
    (hc : cfg.isChild = false)
    (h0 : getWindow cfg (rootTz cfg inp) inp.sunCb
        (localDate (rootTz cfg inp) inp.nowUtc) = .ok w0)
    (hs : searchLoop cfg (rootTz cfg inp) inp.sunCb inp.nowUtc 365
        (localDate (rootTz cfg inp) inp.nowUtc) w0 = .ok (dS, w))
    (hlt : inp.nowUtc < w.1)
    (hp : getWindow cfg (rootTz cfg inp) inp.sunCb (dS - 1) = .ok pw)
    (hin : pw.1 ≤ inp.nowUtc ∧ inp.nowUtc < pw.2) :
    (updateBoundaries cfg st inp).2 = true ∧
    (updateBoundaries cfg st inp).1.calculatedStartUtc = some pw.1 ∧
    (updateBoundaries cfg st inp).1.calculatedEndUtc = some pw.2 := by
  have hr : rootWindow cfg (rootTz cfg inp) inp.sunCb inp.nowUtc = .ok pw := by
    simp only [rootWindow, h0, hs]
    rw [if_pos hlt]
    simp only [hp]
    rw [if_pos hin]
  simp only [updateBoundaries, hc, Bool.not_false, if_true, if_false,
    Bool.false_eq_true, hr]
  exact ⟨by trivial, (calcNextUpdate_preserves _ _).1,
    (calcNextUpdate_preserves _ _).2.1⟩

/-- Witness for C3 amended: `22:00→06:00` evaluated at `01:00` of day 1
records the previous day's window `[79200, 108000)` and is active. -/
theorem C3_witness :
    ((updateBoundaries nightCfg initState (plainInp 90000)).2 = true ∧
     (updateBoundaries nightCfg initState (plainInp 90000)).1.calculatedStartUtc =
       some 79200 ∧
     (updateBoundaries nightCfg initState (plainInp 90000)).1.calculatedEndUtc =
       some 108000) ∧
    is_on (updateBoundaries nightCfg initState (plainInp 90000)).1 90000 = true :=
  ⟨C3_amended_previous_window nightCfg initState (plainInp 90000) 1
    (165600, 194400) (79200, 108000) (165600, 194400) rfl (by decide) (by decide)
    (by decide) (by decide) ⟨by decide, by decide⟩,
   by decide⟩

/-! ### C8 -/

/-- C8: the forward search starts from the window of now's local calendar
date and, while `now_utc ≥` the candidate's end, advances the reference date
by one day, at most 365 times; it settles on the first date from there whose
window end exceeds `now`; and when the cap is exhausted the update still
returns success carrying the final candidate rather than a distinct error. -/
theorem C8_forward_search (cfg : Config) (st : SensorState) (inp : Inputs)
    (w0 : Int × Int) (hc : cfg.isChild = false)
    (h0 : getWindow cfg (rootTz cfg inp) inp.sunCb
        (localDate (rootTz cfg inp) inp.nowUtc) = .ok w0) :
    (∀ dS w, searchLoop cfg (rootTz cfg inp) inp.sunCb inp.nowUtc 365
        (localDate (rootTz cfg inp) inp.nowUtc) w0 = .ok (dS, w) →
      (localDate (rootTz cfg inp) inp.nowUtc ≤ dS ∧
       dS ≤ localDate (rootTz cfg inp) inp.nowUtc + 365 ∧
       getWindow cfg (rootTz cfg inp) inp.sunCb dS = .ok w ∧
       (∀ d2, localDate (rootTz cfg inp) inp.nowUtc ≤ d2 → d2 < dS →
          ∃ w2, getWindow cfg (rootTz cfg inp) inp.sunCb d2 = .ok w2 ∧
            w2.2 ≤ inp.nowUtc))) ∧
    (∀ dS w, searchLoop cfg (rootTz cfg inp) inp.sunCb inp.nowUtc 365
        (localDate (rootTz cfg inp) inp.nowUtc) w0 = .ok (dS, w) →
      w.2 ≤ inp.nowUtc →
      ((updateBoundaries cfg st inp).2 = true ∧
       (updateBoundaries cfg st inp).1.calculatedStartUtc = some w.1 ∧
       (updateBoundaries cfg st inp).1.calculatedEndUtc = some w.2)) := by
  constructor
  · intro dS w hs
    obtain ⟨h1, h2, h3, h4, h5⟩ := searchLoop_spec cfg (rootTz cfg inp)
      inp.sunCb inp.nowUtc 365 (localDate (rootTz cfg inp) inp.nowUtc) w0 dS w
      h0 hs
    exact ⟨h1, by omega, h3, h4⟩
  · intro dS w hs hx
    obtain ⟨h1, h2, h3, h4, h5⟩ := searchLoop_spec cfg (rootTz cfg inp)
      inp.sunCb inp.nowUtc 365 (localDate (rootTz cfg inp) inp.nowUtc) w0 dS w
      h0 hs
    have hdS := h5 hx
    obtain ⟨w2, hw2, hw2le⟩ :=
      h4 (dS - 1) (by omega) (by omega)
    have hr : rootWindow cfg (rootTz cfg inp) inp.sunCb inp.nowUtc = .ok w := by
      simp only [rootWindow, h0, hs]
      by_cases hcase : inp.nowUtc < w.1
      · rw [if_pos hcase]
        simp only [hw2]
        rw [if_neg (fun hcon => (not_lt.mpr hw2le) hcon.2)]
      · rw [if_neg hcase]
    simp only [updateBoundaries, hc, Bool.not_false, if_true, if_false,
      Bool.false_eq_true, hr]
    exact ⟨by trivial, (calcNextUpdate_preserves _ _).1,
      (calcNextUpdate_preserves _ _).2.1⟩

set_option maxRecDepth 8000 in
/-- Witness for C8: the `08:00→09:00` interval evaluated at 10:00 settles on
the next day's window, and with a constant solar callback and `now` beyond
every window the 365-advance cap is exhausted yet the update still
succeeds with the final candidate. -/
theorem C8_witness :
    getWindow gapCfg (rootTz gapCfg (plainInp 36000)) (plainInp 36000).sunCb 1 =
      .ok (115200, 118800) ∧
    ((updateBoundaries sunCfg initState (constSunInp 200000)).2 = true ∧
     (updateBoundaries sunCfg initState
        (constSunInp 200000)).1.calculatedStartUtc = some 0 ∧
     (updateBoundaries sunCfg initState
        (constSunInp 200000)).1.calculatedEndUtc = some 86400) := by
  constructor
  · exact ((C8_forward_search gapCfg initState (plainInp 36000) (28800, 32400)
      rfl (by decide)).1 1 (115200, 118800) (by decide)).2.2.1
  · exact (C8_forward_search sunCfg initState (constSunInp 200000) (0, 86400)
      rfl (by decide)).2 367 (0, 86400) (by decide) (by decide)

end TimezoneTod
